import Mathlib

/-!
Verification development for the UAEF repository: a shallow embedding of the
trust-ledger event chain (`uaef/ledger/events.py`, `uaef/ledger/verification.py`),
the settlement engine (`uaef/settlement/service.py`) and the workflow engine
(`uaef/agents/workflow.py`), together with theorems settling the behavioural
claims about those components.

Modelling conventions:
* Python JSON-ish values (`dict[str, Any]` columns, payloads, condition maps)
  are modelled by the inductive type `Value`; dictionaries are association
  lists; Python `None` and JSON `null` are both `Value.null` (they are the
  same object in the source).  Numbers are modelled as rationals; the hashed
  data in this development only ever contains integral numbers.
* The SHA-256 digest function is kept abstract: every service definition takes
  the digest `hash : String → String` as an explicit parameter, exactly where
  the source calls `HashService.hash`.  Concrete evaluations instantiate it
  with an injective stand-in, which is faithful up to hash collisions.
* `async` methods are pure state-passing functions; the database session is
  the explicit store (a list of rows); exceptions are `Except` results.
-/

namespace UAEF

/-- A Python/JSON value as it appears in the repository's `dict[str, Any]`
payloads, condition maps and hashed event data.  Numbers are modelled as
rationals (the code under study never mixes booleans with numbers). -/
inductive Value where
  | null : Value
  | bool (b : Bool) : Value
  | num (q : ℚ) : Value
  | str (s : String) : Value
  | list (xs : List Value) : Value
  | dict (kvs : List (String × Value)) : Value
deriving Repr

mutual

/-- Python `==` on values (structural equality; the code under study never
compares booleans with numbers, so Python's numeric-boolean coercion is out
of scope). -/
def valueBeq : Value → Value → Bool
  | Value.null, Value.null => true
  | Value.bool a, Value.bool b => a == b
  | Value.num a, Value.num b => a == b
  | Value.str a, Value.str b => a == b
  | Value.list xs, Value.list ys => valueListBeq xs ys
  | Value.dict xs, Value.dict ys => valueKvsBeq xs ys
  | _, _ => false
termination_by structural a => a

/-- Elementwise `valueBeq` on lists. -/
def valueListBeq : List Value → List Value → Bool
  | [], [] => true
  | x :: xs, y :: ys => valueBeq x y && valueListBeq xs ys
  | _, _ => false
termination_by structural a => a

/-- Elementwise `valueBeq` on key-value lists. -/
def valueKvsBeq : List (String × Value) → List (String × Value) → Bool
  | [], [] => true
  | (k, v) :: xs, (l, w) :: ys => k == l && valueBeq v w && valueKvsBeq xs ys
  | _, _ => false
termination_by structural a => a

end

/-- Python `x is None` (and, on JSON data, `x == None`). -/
def isNull : Value → Bool
  | Value.null => true
  | _ => false

/-- Python `d.get(k)`: the value bound to `k`, or `None` when absent. -/
def pyGet (kvs : List (String × Value)) (k : String) : Value :=
  match kvs.find? (fun kv => kv.1 == k) with
  | some kv => kv.2
  | none => Value.null

/-- Python `k in d` for a dict `d`. -/
def hasKey (kvs : List (String × Value)) (k : String) : Bool :=
  (kvs.find? (fun kv => kv.1 == k)).isSome

/-- The dot-notation walk in `SettlementService._evaluate_conditions`:
`actual = data`, then for each part `actual = actual.get(part)` while `actual`
is a dict, otherwise `None`. -/
def walkParts : Value → List String → Value
  | v, [] => v
  | Value.dict kvs, p :: ps => walkParts (pyGet kvs p) ps
  | _, _ :: _ => Value.null

/-- Python `key.split(".")` on the character list of the key. -/
def splitDotChars : List Char → List (List Char)
  | [] => [[]]
  | c :: cs =>
    if c = '.' then [] :: splitDotChars cs
    else
      match splitDotChars cs with
      | [] => [[c]]
      | g :: gs => (c :: g) :: gs

/-- Python `key.split(".")`. -/
def splitDot (key : String) : List String :=
  (splitDotChars key.toList).map (fun cs => String.mk cs)

/-- Resolution of a condition key against the workflow data, following the
code: `actual = data.get(key)`, overridden by the dot-notation walk when the
key contains a `.`. -/
def resolveKey (data : List (String × Value)) (key : String) : Value :=
  if key.toList.contains '.' then
    walkParts (Value.dict data) (splitDot key)
  else
    pyGet data key

/-- Strict cross-multiplication comparison of rationals: the model of
Python `<` on numbers.  `ratLtb_iff` below shows it agrees with the order
on `ℚ`. -/
def ratLtb (a b : ℚ) : Bool :=
  decide (a.num * (b.den : ℤ) < b.num * (a.den : ℤ))

/-- Non-strict cross-multiplication comparison of rationals. -/
def ratLeb (a b : ℚ) : Bool :=
  decide (a.num * (b.den : ℤ) ≤ b.num * (a.den : ℤ))

/-- Lexicographic (code-point) comparison of character lists: the model of
Python `<` on strings. -/
def charListLt : List Char → List Char → Bool
  | [], [] => false
  | [], _ :: _ => true
  | _ :: _, [] => false
  | a :: as, b :: bs => if a = b then charListLt as bs else decide (a < b)

/-- Python `a <= b` on strings; the order is total, so `a <= b ↔ ¬ (b < a)`. -/
def charListLe (as bs : List Char) : Bool := !(charListLt bs as)

/-- Python `a < b` restricted to the comparisons the evaluator performs:
number/number and string/string; any other combination raises `TypeError`,
modelled as an error. -/
def pyLt : Value → Value → Except Unit Bool
  | Value.num a, Value.num b => .ok (ratLtb a b)
  | Value.str a, Value.str b => .ok (charListLt a.toList b.toList)
  | _, _ => .error ()

/-- Python `a <= b`, with the same domain as `pyLt`. -/
def pyLe : Value → Value → Except Unit Bool
  | Value.num a, Value.num b => .ok (ratLeb a b)
  | Value.str a, Value.str b => .ok (charListLe a.toList b.toList)
  | _, _ => .error ()

/-- Python `a > b`, with the same domain as `pyLt`. -/
def pyGt (a b : Value) : Except Unit Bool := pyLt b a

/-- Python `a >= b`, with the same domain as `pyLt`. -/
def pyGe (a b : Value) : Except Unit Bool := pyLe b a

/-- The `$eq` step of the operator if-chain in
`SettlementService._evaluate_conditions`: when `ops` holds `$eq` and the
actual value differs, the entry fails; otherwise the next check runs. -/
def checkEq (ops : List (String × Value)) (actual : Value)
    (cont : Except Unit Bool) : Except Unit Bool :=
  if hasKey ops ("$eq") && !(valueBeq actual (pyGet ops ("$eq"))) then .ok false
  else cont

/-- One comparison step (`$gt`/`$gte`/`$lt`/`$lte`) of the operator if-chain:
when `ops` holds `op`, a `None` actual fails the entry, a comparison
`TypeError` propagates, and a true failing-comparison (`cmp actual bound`,
the negation of the operator) fails the entry; otherwise the next check
runs. -/
def checkCmp (op : String) (cmp : Value → Value → Except Unit Bool)
    (ops : List (String × Value)) (actual : Value) (cont : Except Unit Bool) :
    Except Unit Bool :=
  if hasKey ops op then
    if isNull actual then .ok false
    else
      match cmp actual (pyGet ops op) with
      | .error e => .error e
      | .ok true => .ok false
      | .ok false => cont
  else cont

/-- The `$in` step of the operator if-chain: membership (by Python `==`) in
the expected JSON array, the only container the repository uses there. -/
def checkIn (ops : List (String × Value)) (actual : Value)
    (cont : Except Unit Bool) : Except Unit Bool :=
  if hasKey ops ("$in") then
    match pyGet ops ("$in") with
    | Value.list xs =>
      if !(xs.any (fun x => valueBeq x actual)) then .ok false else cont
    | _ => .error ()
  else cont

/-- One entry of the condition map, following the body of the loop in
`SettlementService._evaluate_conditions`: when the expected side is a dict
the operators `$eq`, `$gt`, `$gte`, `$lt`, `$lte`, `$in` are checked in turn,
each able to fail the entry (an operator dict with none of them passes
vacuously, as in the source); otherwise a direct equality check is
performed.  `$gt` fails when `actual <= bound`, `$gte` when `actual < bound`,
`$lt` when `actual >= bound`, `$lte` when `actual > bound`, as in the
source's negated conditions. -/
def entryEval (data : List (String × Value)) (key : String) (expected : Value) :
    Except Unit Bool :=
  let actual := resolveKey data key
  match expected with
  | Value.dict ops =>
    checkEq ops actual
      (checkCmp ("$gt") pyLe ops actual
        (checkCmp ("$gte") pyLt ops actual
          (checkCmp ("$lt") pyGe ops actual
            (checkCmp ("$lte") pyGt ops actual
              (checkIn ops actual (.ok true))))))
  | _ => .ok (valueBeq actual expected)

/-- `SettlementService._evaluate_conditions`: all entries are checked in turn
(AND); the first failing entry returns `False`, a raised `TypeError`
propagates, and an empty condition map is `True`. -/
def evaluateConditions :
    List (String × Value) → List (String × Value) → Except Unit Bool
  | [], _ => .ok true
  | (k, v) :: rest, data =>
    match entryEval data k v with
    | .error e => .error e
    | .ok true => evaluateConditions rest data
    | .ok false => .ok false

/-! ## Canonical JSON and the hash service (`uaef/core/security.py`) -/

/-- JSON escaping of one character, as `json.dumps` performs it for the
characters occurring in this development (backslash and double quote; the
hashed data contains no control characters or non-ASCII text). -/
def jsonEscapeChar (c : Char) : List Char :=
  if c = '\\' then ['\\', '\\']
  else if c = '"' then ['\\', '"']
  else [c]

/-- JSON rendering of a string literal. -/
def jsonStr (s : String) : String :=
  "\"" ++ String.mk (s.toList.flatMap jsonEscapeChar) ++ "\""

/-- Insert a rendered key/value pair into a list sorted by key
(code-point order, as Python `sort_keys=True` sorts). -/
def insertPair (p : String × String) :
    List (String × String) → List (String × String)
  | [] => [p]
  | q :: qs =>
    if charListLe p.1.toList q.1.toList then p :: q :: qs else q :: insertPair p qs

/-- Sort rendered key/value pairs by key. -/
def sortPairs : List (String × String) → List (String × String)
  | [] => []
  | p :: ps => insertPair p (sortPairs ps)

mutual

/-- `json.dumps(v, sort_keys=True, separators=(",", ":"))`, the canonical JSON
form hashed by `HashService.hash_event`.  Dictionary keys are sorted at every
level; numbers in the hashed data are always integral and render in decimal
(Python float rendering is outside the modelled fragment and never occurs in
hashed data). -/
def canonicalJson : Value → String
  | Value.null => "null"
  | Value.bool true => "true"
  | Value.bool false => "false"
  | Value.num q =>
    if q.den = 1 then toString q.num
    else toString q.num ++ "/" ++ toString q.den
  | Value.str s => jsonStr s
  | Value.list xs =>
    "[" ++ String.intercalate (",") (canonicalJsonList xs) ++ "]"
  | Value.dict kvs =>
    "\x7b" ++
      String.intercalate (",")
        ((sortPairs (canonicalJsonKvs kvs)).map
          (fun p => jsonStr p.1 ++ ":" ++ p.2)) ++ "\x7d"
termination_by structural v => v

/-- Canonical JSON of each element of a list. -/
def canonicalJsonList : List Value → List String
  | [] => []
  | v :: vs => canonicalJson v :: canonicalJsonList vs
termination_by structural l => l

/-- Keys paired with the canonical JSON of their values. -/
def canonicalJsonKvs : List (String × Value) → List (String × String)
  | [] => []
  | (k, v) :: kvs => (k, canonicalJson v) :: canonicalJsonKvs kvs
termination_by structural l => l

end

/-- `HashService.hash_chain(previous_hash, data)`:
the digest of `previous_hash || ":" || data`. -/
def hashChain (hash : String → String) (previousHash data : String) : String :=
  hash (previousHash ++ ":" ++ data)

/-- `HashService.hash_event(event_data)`: the digest of the canonical JSON. -/
def hashEvent (hash : String → String) (eventData : Value) : String :=
  hash (canonicalJson eventData)

/-! ## Ledger events (`uaef/ledger/events.py`, `uaef/ledger/models.py`) -/

/-- A `LedgerEvent` row.  `created_at` is the stored timestamp (assigned by
the database's `server_default=func.now()`), observed through `isoformat()`
and therefore modelled directly as its ISO-8601 string. -/
structure LedgerEvent where
  id : String
  sequence_number : Nat
  event_type : String
  workflow_id : Option String
  task_id : Option String
  agent_id : Option String
  payload : Value
  actor_type : String
  actor_id : Option String
  previous_hash : Option String
  event_hash : String
  created_at : String
deriving Repr

/-- An optional string as a JSON value (`None` becomes `null`). -/
def optStr : Option String → Value
  | none => Value.null
  | some s => Value.str s

/-- The rational with integer value `n` (denominator 1). -/
def intRat (n : ℤ) : ℚ := ⟨n, 1, one_ne_zero, Nat.coprime_one_right _⟩

/-- The `hash_data` dictionary assembled identically in `record_event`,
`verify_chain` and `verify_event` (keys listed in source order; canonical
JSON sorts them). -/
def hashData (sequence : Nat) (eventType : String)
    (workflowId taskId agentId : Option String) (actorType : String)
    (actorId : Option String) (payload : Value) (previousHash : Option String)
    (timestamp : String) : Value :=
  Value.dict
    [("sequence", Value.num (intRat sequence)),
     ("type", Value.str eventType),
     ("workflow_id", optStr workflowId),
     ("task_id", optStr taskId),
     ("agent_id", optStr agentId),
     ("actor_type", Value.str actorType),
     ("actor_id", optStr actorId),
     ("payload", payload),
     ("previous_hash", optStr previousHash),
     ("timestamp", Value.str timestamp)]

/-- Python truthiness of the optional `previous_hash` string (`None` and `""`
are falsy). -/
def optTruthy : Option String → Bool
  | none => false
  | some s => !(s == "")

/-- The hash rule shared by `record_event`, `verify_chain` and `verify_event`:
`hash_chain(prev, hash_event(hash_data))` when `previous_hash` is truthy,
otherwise `hash_event(hash_data)`. -/
def computeEventHash (hash : String → String) (hd : Value)
    (previousHash : Option String) : String :=
  if optTruthy previousHash then
    hashChain hash (previousHash.getD ("")) (hashEvent hash hd)
  else
    hashEvent hash hd

/-- The keyword arguments of `record_event` together with the values the
environment supplies during the call: the generated event id, the
`datetime.now(timezone.utc).isoformat()` string captured while hashing, and
the `created_at` timestamp the database assigns at flush time. -/
structure RecordInput where
  eventType : String
  payload : Value
  workflowId : Option String
  taskId : Option String
  agentId : Option String
  actorType : String
  actorId : Option String
  newId : String
  hashTimestamp : String
  dbTimestamp : String
deriving Repr

/-- `select coalesce(max(sequence_number), 0)` over the ledger table. -/
def maxSeq (ledger : List LedgerEvent) : Nat :=
  ledger.foldl (fun acc e => max acc e.sequence_number) 0

/-- `LedgerEventService.record_event`: compute the next sequence number and
the previous event's hash, hash the event data (whose `timestamp` field is
the wall-clock reading `inp.hashTimestamp`), and insert the new row, whose
stored `created_at` is the database-assigned `inp.dbTimestamp`. -/
def recordEvent (hash : String → String) (ledger : List LedgerEvent)
    (inp : RecordInput) : List LedgerEvent × LedgerEvent :=
  let lastSequence := maxSeq ledger
  let nextSequence := lastSequence + 1
  let previousHash : Option String :=
    if lastSequence > 0 then
      (ledger.find? (fun e => e.sequence_number == lastSequence)).map
        (fun e => e.event_hash)
    else none
  let hd := hashData nextSequence inp.eventType inp.workflowId inp.taskId
    inp.agentId inp.actorType inp.actorId inp.payload previousHash
    inp.hashTimestamp
  let eventHash := computeEventHash hash hd previousHash
  let event : LedgerEvent :=
    { id := inp.newId
      sequence_number := nextSequence
      event_type := inp.eventType
      workflow_id := inp.workflowId
      task_id := inp.taskId
      agent_id := inp.agentId
      payload := inp.payload
      actor_type := inp.actorType
      actor_id := inp.actorId
      previous_hash := previousHash
      event_hash := eventHash
      created_at := inp.dbTimestamp }
  (ledger ++ [event], event)

/-- Insert an event into a list sorted by sequence number. -/
def insertBySeq (e : LedgerEvent) : List LedgerEvent → List LedgerEvent
  | [] => [e]
  | f :: fs =>
    if e.sequence_number ≤ f.sequence_number then e :: f :: fs
    else f :: insertBySeq e fs

/-- Sort events by sequence number (the `ORDER BY sequence_number` of the
range queries). -/
def sortBySeq : List LedgerEvent → List LedgerEvent
  | [] => []
  | e :: es => insertBySeq e (sortBySeq es)

/-- `get_event_chain(start, end)`: the events with sequence number in the
inclusive range, ordered by sequence number. -/
def getEventChain (ledger : List LedgerEvent) (startSeq endSeq : Nat) :
    List LedgerEvent :=
  sortBySeq (ledger.filter
    (fun e => startSeq ≤ e.sequence_number && e.sequence_number ≤ endSeq))

/-- The `hash_data` dictionary rebuilt from a stored row in `verify_chain`
and `verify_event`: identical fields, with `timestamp` taken from the stored
`created_at`. -/
def storedHashData (e : LedgerEvent) : Value :=
  hashData e.sequence_number e.event_type e.workflow_id e.task_id e.agent_id
    e.actor_type e.actor_id e.payload e.previous_hash e.created_at

/-- The expected hash recomputed from a stored row. -/
def expectedHash (hash : String → String) (e : LedgerEvent) : String :=
  computeEventHash hash (storedHashData e) e.previous_hash

/-- The `for i, event in enumerate(events)` loop of `verify_chain`: per-event
hash recomputation, plus the linkage check against the preceding fetched
event for every event but the first. -/
def verifyChainLoop (hash : String → String) :
    Option LedgerEvent → List LedgerEvent → Bool × Option String
  | _, [] => (true, none)
  | prevOpt, e :: rest =>
    if !(e.event_hash == expectedHash hash e) then
      (false, some ("Hash mismatch at sequence " ++ toString e.sequence_number))
    else
      match prevOpt with
      | some prev =>
        if !(e.previous_hash == some prev.event_hash) then
          (false, some ("Chain break at sequence " ++ toString e.sequence_number))
        else verifyChainLoop hash (some e) rest
      | none => verifyChainLoop hash (some e) rest

/-- `LedgerEventService.verify_chain(start, end)`. -/
def verifyChain (hash : String → String) (ledger : List LedgerEvent)
    (startSeq endSeq : Nat) : Bool × Option String :=
  verifyChainLoop hash none (getEventChain ledger startSeq endSeq)

/-- `LedgerEventService.get_latest_sequence`. -/
def getLatestSequence (ledger : List LedgerEvent) : Nat := maxSeq ledger

/-! ## Verification service (`uaef/ledger/verification.py`) -/

/-- `VerificationService.verify_event(event_id)`: look the row up by id and
recompute its hash from the stored fields. -/
def verifyEvent (hash : String → String) (ledger : List LedgerEvent)
    (eventId : String) : Bool × Option String :=
  match ledger.find? (fun e => e.id == eventId) with
  | none => (false, some ("Event " ++ eventId ++ " not found"))
  | some e =>
    if !(e.event_hash == expectedHash hash e) then
      (false, some ("Hash mismatch for event " ++ eventId))
    else (true, none)

/-- An entry of the error list built by `verify_chain_range`; the
`expected`/`actual` fields are present only on chain-break entries. -/
structure VerificationError where
  sequence : Nat
  error : Option String
  expected : Option (Option String)
  actual : Option (Option String)
deriving Repr, DecidableEq

/-- The loop of `verify_chain_range`: the running `previous_hash` starts at
`None`, each event is checked for continuity against it and individually via
`verify_event`, and the running hash becomes the event's stored hash. -/
def verifyChainRangeLoop (hash : String → String) (ledger : List LedgerEvent)
    (previousHash : Option String) :
    List LedgerEvent → List VerificationError
  | [] => []
  | e :: rest =>
    let contErrs : List VerificationError :=
      if !(e.previous_hash == previousHash) then
        [⟨e.sequence_number, some ("Chain break - previous hash mismatch"),
          some previousHash, some e.previous_hash⟩]
      else []
    let evErrs : List VerificationError :=
      match verifyEvent hash ledger e.id with
      | (true, _) => []
      | (false, err) => [⟨e.sequence_number, err, none, none⟩]
    contErrs ++ evErrs ++
      verifyChainRangeLoop hash ledger (some e.event_hash) rest

/-- `VerificationService.verify_chain_range(start, end)`. -/
def verifyChainRange (hash : String → String) (ledger : List LedgerEvent)
    (startSeq endSeq : Nat) : Bool × List VerificationError :=
  let errors :=
    verifyChainRangeLoop hash ledger none (getEventChain ledger startSeq endSeq)
  (errors.length == 0, errors)

/-- One pass of the while loop in `_calculate_merkle_root`: adjacent pairs are
combined by `hash(left + right)`, a trailing odd element is paired with
itself. -/
def merklePass (hash : String → String) : List String → List String
  | [] => []
  | [x] => [hash (x ++ x)]
  | x :: y :: rest => hash (x ++ y) :: merklePass hash rest

/-- The while loop of `_calculate_merkle_root`, iterating passes until one
hash remains; the fuel only bounds the iteration count (each pass halves the
level rounding up, so `l.length` units always suffice and the exhausted-fuel
branch is never taken by `merkleLoop`). -/
def merkleLoopAux (hash : String → String) : Nat → List String → String
  | _, [] => hash ("")
  | _, [x] => x
  | 0, x :: _ :: _ => x
  | fuel + 1, x :: y :: rest => merkleLoopAux hash fuel (merklePass hash (x :: y :: rest))

/-- The while loop of `_calculate_merkle_root` on a level. -/
def merkleLoop (hash : String → String) (l : List String) : String :=
  merkleLoopAux hash l.length l

/-- `VerificationService._calculate_merkle_root`: the empty list hashes to
`hash("")`, a single hash is its own root, otherwise pairwise passes run to
a single root. -/
def merkleRoot (hash : String → String) (hashes : List String) : String :=
  match hashes with
  | [] => hash ("")
  | [x] => x
  | l => merkleLoop hash l

/-- A `LedgerBlock` row. -/
structure LedgerBlock where
  block_number : Nat
  start_sequence : Nat
  end_sequence : Nat
  event_count : Nat
  previous_block_hash : Option String
  block_hash : String
  merkle_root : String
deriving Repr, DecidableEq

/-- `select coalesce(max(block_number), 0)` over the block table. -/
def maxBlockNumber (blocks : List LedgerBlock) : Nat :=
  blocks.foldl (fun acc b => max acc b.block_number) 0

/-- `select ... order by block_number desc limit 1`: the block with the
largest block number, if any. -/
def latestBlock (blocks : List LedgerBlock) : Option LedgerBlock :=
  blocks.foldl
    (fun acc b =>
      match acc with
      | none => some b
      | some c => if b.block_number > c.block_number then some b else some c)
    none

/-- The `block_data` dictionary hashed in `create_block` and `verify_block`. -/
def blockData (blockNumber startSeq endSeq : Nat) (root : String)
    (previousBlockHash : Option String) : Value :=
  Value.dict
    [("block_number", Value.num (intRat blockNumber)),
     ("start_sequence", Value.num (intRat startSeq)),
     ("end_sequence", Value.num (intRat endSeq)),
     ("merkle_root", Value.str root),
     ("previous_block_hash", optStr previousBlockHash)]

/-- `VerificationService.create_block(start, end)`: collect the events in
range (raising `ValueError` when there are none), compute the Merkle root of
their hashes, chain to the latest block, and insert the new block. -/
def createBlock (hash : String → String) (ledger : List LedgerEvent)
    (blocks : List LedgerBlock) (startSeq endSeq : Nat) :
    Except String (List LedgerBlock × LedgerBlock) :=
  let events := getEventChain ledger startSeq endSeq
  if events.isEmpty then
    .error ("No events found in range " ++ toString startSeq ++ "-" ++
      toString endSeq)
  else
    let root := merkleRoot hash (events.map (fun e => e.event_hash))
    let previousBlockHash := (latestBlock blocks).map (fun b => b.block_hash)
    let nextBlockNumber := maxBlockNumber blocks + 1
    let bh := hashEvent hash
      (blockData nextBlockNumber startSeq endSeq root previousBlockHash)
    let block : LedgerBlock :=
      { block_number := nextBlockNumber
        start_sequence := startSeq
        end_sequence := endSeq
        event_count := events.length
        previous_block_hash := previousBlockHash
        block_hash := bh
        merkle_root := root }
    .ok (blocks ++ [block], block)

/-- `VerificationService.verify_block(block_number)`: recompute the Merkle
root from the events currently in the block's range and the block hash from
the stored fields. -/
def verifyBlock (hash : String → String) (ledger : List LedgerEvent)
    (blocks : List LedgerBlock) (blockNumber : Nat) : Bool × Option String :=
  match blocks.find? (fun b => b.block_number == blockNumber) with
  | none => (false, some ("Block " ++ toString blockNumber ++ " not found"))
  | some block =>
    let events := getEventChain ledger block.start_sequence block.end_sequence
    let expectedRoot := merkleRoot hash (events.map (fun e => e.event_hash))
    if !(block.merkle_root == expectedRoot) then
      (false, some ("Merkle root mismatch for block " ++ toString blockNumber))
    else
      let expectedBlockHash := hashEvent hash
        (blockData block.block_number block.start_sequence block.end_sequence
          block.merkle_root block.previous_block_hash)
      if !(block.block_hash == expectedBlockHash) then
        (false, some ("Block hash mismatch for block " ++ toString blockNumber))
      else (true, none)

/-! ## Settlement signals (`uaef/settlement/service.py`, `settlement/models.py`) -/

/-- `SettlementStatus`. -/
inductive SettlementStatus where
  | pending
  | approved
  | processing
  | completed
  | failed
  | cancelled
deriving Repr, DecidableEq

/-- The string value of a settlement status. -/
def SettlementStatus.toStr : SettlementStatus → String
  | .pending => "pending"
  | .approved => "approved"
  | .processing => "processing"
  | .completed => "completed"
  | .failed => "failed"
  | .cancelled => "cancelled"

/-- The fields of a `SettlementSignal` row touched by the lifecycle
operations.  Timestamps are modelled as their rendered strings. -/
structure SettlementSignal where
  status : SettlementStatus
  approved_by : Option String
  approved_at : Option String
  processed_at : Option String
  transaction_id : Option String
  error_message : Option String
  retry_count : Nat
deriving Repr, DecidableEq

/-- `SettlementService.approve_signal` on the fetched signal: raises unless
the status is `pending`, otherwise marks it approved.  (The not-found branch
concerns the lookup, not the row, and the raise happens before any
mutation, leaving the row unchanged.) -/
def approveSignal (signal : SettlementSignal) (approvedBy now : String) :
    Except String SettlementSignal :=
  if signal.status ≠ SettlementStatus.pending then
    .error ("Signal is not pending approval: " ++ signal.status.toStr)
  else
    .ok { signal with
      status := SettlementStatus.approved
      approved_by := some approvedBy
      approved_at := some now }

/-- `SettlementService.process_signal` on the fetched signal: raises unless
the status is `approved` or `processing`, otherwise marks it completed and
stores the transaction id.  The subsequent `settlement_completed` ledger
write does not touch the signal row. -/
def processSignal (signal : SettlementSignal) (transactionId now : String) :
    Except String SettlementSignal :=
  if signal.status ≠ SettlementStatus.approved ∧
      signal.status ≠ SettlementStatus.processing then
    .error ("Signal must be approved before processing: " ++ signal.status.toStr)
  else
    .ok { signal with
      status := SettlementStatus.completed
      processed_at := some now
      transaction_id := some transactionId }

/-- `SettlementService.fail_signal` on the fetched signal: no status guard -
any signal is marked failed, the error recorded and the retry count bumped.
The subsequent `settlement_failed` ledger write does not touch the row. -/
def failSignal (signal : SettlementSignal) (errorMessage : String) :
    SettlementSignal :=
  { signal with
    status := SettlementStatus.failed
    error_message := some errorMessage
    retry_count := signal.retry_count + 1 }

/-! ## Workflow engine (`uaef/agents/workflow.py`, `agents/models.py`) -/

/-- `TaskStatus`. -/
inductive TaskStatus where
  | pending
  | queued
  | running
  | waiting_input
  | completed
  | failed
  | skipped
  | cancelled
deriving Repr, DecidableEq

/-- `WorkflowStatus`. -/
inductive WorkflowStatus where
  | pending
  | running
  | paused
  | waiting_approval
  | completed
  | failed
  | cancelled
deriving Repr, DecidableEq

/-- The fields of a `WorkflowExecution` row the engine operations touch. -/
structure WorkflowExecution where
  id : String
  status : WorkflowStatus
  total_tasks : Nat
  completed_tasks : Nat
  error_message : Option String
deriving Repr, DecidableEq

/-- The fields of a `TaskExecution` row the engine operations touch. -/
structure TaskExecution where
  id : String
  task_name : String
  status : TaskStatus
  retry_count : Nat
  agent_id : Option String
  depends_on : List String
  output_data : Option Value
  error_message : Option String
deriving Repr

/-- The metric columns of an `Agent` row. -/
structure AgentRow where
  id : String
  total_tasks : Nat
  successful_tasks : Nat
  failed_tasks : Nat
deriving Repr, DecidableEq

/-- The state one workflow execution's operations read and write: the
execution row, its task rows, the agent rows, and the event types recorded
to the ledger (in order; the ledger rows themselves are covered by the
ledger model above). -/
structure EngineState where
  execution : WorkflowExecution
  tasks : List TaskExecution
  agents : List AgentRow
  events : List String
deriving Repr

/-- `AgentRegistry.update_agent_metrics`: bump the matching agent's
counters (a missing agent is a no-op). -/
def updateAgentMetrics (agents : List AgentRow) (agentId : String)
    (success : Bool) : List AgentRow :=
  agents.map (fun a =>
    if a.id == agentId then
      { a with
        total_tasks := a.total_tasks + 1
        successful_tasks :=
          if success then a.successful_tasks + 1 else a.successful_tasks
        failed_tasks :=
          if success then a.failed_tasks else a.failed_tasks + 1 }
    else a)

/-- Apply an update to the task row with the given id. -/
def updateTask (tasks : List TaskExecution) (taskId : String)
    (f : TaskExecution → TaskExecution) : List TaskExecution :=
  tasks.map (fun t => if t.id == taskId then f t else t)

/-- `WorkflowService._fail_workflow`: mark the execution failed, store the
message and emit `workflow_failed`. -/
def failWorkflow (st : EngineState) (errorMessage : String) : EngineState :=
  { st with
    execution := { st.execution with
      status := WorkflowStatus.failed
      error_message := some errorMessage }
    events := st.events ++ ["workflow_failed"] }

/-- `WorkflowService._handle_task_failure`: record the error and bump
`retry_count`; below the hard-coded `max_retries = 3` the task returns to
`pending` and `task_retried` is emitted, otherwise the task is marked
failed, `task_failed` emitted, the assigned agent's failure metric bumped,
and the whole workflow failed. -/
def handleTaskFailure (st : EngineState) (taskId errorMessage : String) :
    EngineState :=
  match st.tasks.find? (fun t => t.id == taskId) with
  | none => st
  | some t =>
    let newRetry := t.retry_count + 1
    if newRetry < 3 then
      { st with
        tasks := updateTask st.tasks taskId (fun u =>
          { u with
            error_message := some errorMessage
            retry_count := newRetry
            status := TaskStatus.pending })
        events := st.events ++ ["task_retried"] }
    else
      let st1 : EngineState :=
        { st with
          tasks := updateTask st.tasks taskId (fun u =>
            { u with
              error_message := some errorMessage
              retry_count := newRetry
              status := TaskStatus.failed })
          events := st.events ++ ["task_failed"] }
      let st2 : EngineState :=
        match t.agent_id with
        | some aid => { st1 with agents := updateAgentMetrics st1.agents aid false }
        | none => st1
      failWorkflow st2 ("Task " ++ t.task_name ++ " failed: " ++ errorMessage)

/-- `WorkflowService._complete_workflow`: mark the execution completed and
emit `workflow_completed`; the settlement evaluation that follows appends
`settlement_triggered` events only for matching rules and never touches the
execution's counters (and cannot run at all from `_fail_workflow`). -/
def completeWorkflow (st : EngineState) : EngineState :=
  { st with
    execution := { st.execution with status := WorkflowStatus.completed }
    events := st.events ++ ["workflow_completed"] }

/-- `WorkflowService.complete_task`: look the task up (raising when absent),
mark it completed with its output, emit `task_completed`, credit the
assigned agent, increment the execution's `completed_tasks`, and when the
count reaches `total_tasks` complete the workflow.  The alternative branch
(`execute_next_tasks`) only dispatches further tasks, whose effects arrive
through subsequent operations, so it is the identity on this row-level
state. -/
def completeTask (st : EngineState) (taskId : String) (outputData : Value) :
    Except String EngineState :=
  match st.tasks.find? (fun t => t.id == taskId) with
  | none => .error ("Task " ++ taskId ++ " not found")
  | some t =>
    let st1 : EngineState :=
      { st with
        tasks := updateTask st.tasks taskId (fun u =>
          { u with
            status := TaskStatus.completed
            output_data := some outputData })
        events := st.events ++ ["task_completed"] }
    let st2 : EngineState :=
      match t.agent_id with
      | some aid => { st1 with agents := updateAgentMetrics st1.agents aid true }
      | none => st1
    let st3 : EngineState :=
      { st2 with execution := { st2.execution with
          completed_tasks := st2.execution.completed_tasks + 1 } }
    if st3.execution.completed_tasks ≥ st3.execution.total_tasks then
      .ok (completeWorkflow st3)
    else
      .ok st3

/-- One dispatch attempt of an always-failing agent task: `_execute_task`
marks the task running and emits `task_started`, `_execute_agent_task`
assigns the agent, the adapter raises, and `execute_next_tasks` routes the
exception to `_handle_task_failure`. -/
def failingAttempt (st : EngineState) (taskId agentId errorMessage : String) :
    EngineState :=
  let st1 : EngineState :=
    { st with
      tasks := updateTask st.tasks taskId (fun u =>
        { u with status := TaskStatus.running, agent_id := some agentId })
      events := st.events ++ ["task_started"] }
  handleTaskFailure st1 taskId errorMessage

/-- The retry cycle for an always-failing task: while the task is pending it
is re-scheduled (`execute_next_tasks`) and the attempt fails again.  Fuel
bounds the loop; three units suffice, since each failure bumps the retry
count toward the limit. -/
def runFailingTask : Nat → EngineState → String → String → String → EngineState
  | 0, st, _, _, _ => st
  | n + 1, st, taskId, agentId, msg =>
    match st.tasks.find? (fun t => t.id == taskId) with
    | some t =>
      if t.status = TaskStatus.pending then
        runFailingTask n (failingAttempt st taskId agentId msg) taskId agentId msg
      else st
    | none => st

/-! ## Workflow definitions (`WorkflowService.create_definition`) -/

/-- The fields of a `WorkflowDefinition` row that `create_definition`
populates.  Tasks and edges are stored as the JSON documents the caller
passed. -/
structure WorkflowDefinition where
  name : String
  description : Option String
  version : String
  tasks : List Value
  edges : List Value
  is_active : Bool
deriving Repr

/-- `WorkflowService.create_definition`: construct the definition row from
the arguments and persist it.  The source performs no validation of `tasks`
or `edges` whatsoever. -/
def createDefinition (defs : List WorkflowDefinition) (name : String)
    (tasks edges : List Value) (description : Option String)
    (version : String) : List WorkflowDefinition × WorkflowDefinition :=
  let d : WorkflowDefinition :=
    { name := name
      description := description
      version := version
      tasks := tasks
      edges := edges
      is_active := true }
  (defs ++ [d], d)

/-- Specification-side predicate (from the spec's words, for comparison with
the source): an edge list contains a self-loop when some edge's `from` and
`to` fields resolve to the same task id. -/
def hasSelfLoop (edges : List Value) : Bool :=
  edges.any (fun e =>
    match e with
    | Value.dict kvs => valueBeq (pyGet kvs ("from")) (pyGet kvs ("to"))
    | _ => false)

/-! ## Invariants -/

/-- The chain invariant from position `n` with expected previous hash `p`:
the rows carry sequence numbers `n, n+1, ...` in order, each row's
`previous_hash` is the expected one, and the expectation for the next row is
the row's own stored hash. -/
def chainFrom : Nat → Option String → List LedgerEvent → Prop
  | _, _, [] => True
  | n, p, e :: rest =>
    e.sequence_number = n ∧ e.previous_hash = p ∧
      chainFrom (n + 1) (some e.event_hash) rest

/-- The ledger chain invariant: sequence numbers run `1..n` with no gaps,
the first event's `previous_hash` is null, and every later event's
`previous_hash` is the stored `event_hash` of its predecessor. -/
def chainOk (l : List LedgerEvent) : Prop := chainFrom 1 none l

/-- The expected `previous_hash` after the events of `l`, starting from `p`. -/
def chainNext : Option String → List LedgerEvent → Option String
  | p, [] => p
  | _, e :: rest => chainNext (some e.event_hash) rest

/-- The ledger states reachable from the empty table by `record_event`. -/
inductive ReachableLedger (hash : String → String) : List LedgerEvent → Prop where
  | nil : ReachableLedger hash []
  | step (l : List LedgerEvent) (inp : RecordInput) :
      ReachableLedger hash l → ReachableLedger hash (recordEvent hash l inp).1

/-- The number of completed task rows. -/
def countCompleted (tasks : List TaskExecution) : Nat :=
  (tasks.filter (fun t => t.status == TaskStatus.completed)).length

/-- The execution-level invariant of the workflow engine: the counters agree
with the task rows, and a completed execution has completed exactly its task
count. -/
def execInvariant (st : EngineState) : Prop :=
  st.execution.completed_tasks = countCompleted st.tasks ∧
  st.execution.total_tasks = st.tasks.length ∧
  (st.execution.status = WorkflowStatus.completed →
    st.execution.completed_tasks = st.execution.total_tasks)

/-! ## Concrete instances used in closed evaluations -/

/-- An injective stand-in digest used to evaluate the hash-parameterised
services on concrete inputs (faithful to the SHA-256 deployment up to hash
collisions). -/
def exHash (s : String) : String := "#" ++ s

/-- A first recorded event; its two clock readings agree. -/
def exInput1 : RecordInput :=
  { eventType := "workflow_started"
    payload := Value.dict [("workflow_name", Value.str ("demo"))]
    workflowId := some ("wf-1")
    taskId := none
    agentId := none
    actorType := "system"
    actorId := none
    newId := "e1"
    hashTimestamp := "2026-01-01T00:00:00+00:00"
    dbTimestamp := "2026-01-01T00:00:00+00:00" }

/-- A second recorded event; its two clock readings agree. -/
def exInput2 : RecordInput :=
  { eventType := "task_started"
    payload := Value.dict [("task_name", Value.str ("t"))]
    workflowId := some ("wf-1")
    taskId := some ("task-1")
    agentId := none
    actorType := "system"
    actorId := none
    newId := "e2"
    hashTimestamp := "2026-01-01T00:00:01+00:00"
    dbTimestamp := "2026-01-01T00:00:01+00:00" }

/-- A recorded event whose `created_at` (the database's clock at flush time)
differs from the `datetime.now()` reading hashed by `record_event` - which
is what happens on every real insert, the two clocks being read at different
instants. -/
def exInputMismatch : RecordInput :=
  { eventType := "workflow_started"
    payload := Value.dict [("workflow_name", Value.str ("demo"))]
    workflowId := some ("wf-1")
    taskId := none
    agentId := none
    actorType := "system"
    actorId := none
    newId := "e1"
    hashTimestamp := "2026-01-01T00:00:00.000017+00:00"
    dbTimestamp := "2026-01-01T00:00:00.000433+00:00" }

/-- A one-event ledger whose stored timestamp matches the hashed one. -/
def exLedger1 : List LedgerEvent := (recordEvent exHash [] exInput1).1

/-- A two-event ledger whose stored timestamps match the hashed ones. -/
def exLedger2 : List LedgerEvent := (recordEvent exHash exLedger1 exInput2).1

/-- A one-event ledger as real inserts produce it: the stored `created_at`
differs from the timestamp that was hashed. -/
def exLedgerMismatch : List LedgerEvent := (recordEvent exHash [] exInputMismatch).1

/-- The condition-evaluator rule of the spec's worked example:
`{score: {$gte: 0.9}, region: {$in: ["US","EU"]}}`. -/
def exRule : List (String × Value) :=
  [("score", Value.dict [("$gte", Value.num ⟨9, 10, by norm_num, by norm_num⟩)]),
   ("region", Value.dict
     [("$in", Value.list [Value.str ("US"), Value.str ("EU")])])]

/-- `{score: 0.95, region: "EU"}`. -/
def exData1 : List (String × Value) :=
  [("score", Value.num ⟨19, 20, by norm_num, by norm_num⟩),
   ("region", Value.str ("EU"))]

/-- `{score: 0.95, region: "AP"}`. -/
def exData2 : List (String × Value) :=
  [("score", Value.num ⟨19, 20, by norm_num, by norm_num⟩),
   ("region", Value.str ("AP"))]

/-- `{score: 0.8, region: "EU"}`. -/
def exData3 : List (String × Value) :=
  [("score", Value.num ⟨4, 5, by norm_num, by norm_num⟩),
   ("region", Value.str ("EU"))]

/-- The always-failing task of the retry scenario. -/
def exFailTask : TaskExecution :=
  { id := "t1", task_name := "T", status := TaskStatus.pending, retry_count := 0
    agent_id := none, depends_on := [], output_data := none, error_message := none }

/-- The agent the retry scenario assigns, with fresh metrics. -/
def exFailAgent : AgentRow :=
  { id := "ag", total_tasks := 0, successful_tasks := 0, failed_tasks := 0 }

/-- The retry scenario's initial state: a one-task running execution, after
`start_workflow` has recorded `workflow_started`. -/
def exFailInit : EngineState :=
  { execution :=
      { id := "x", status := WorkflowStatus.running, total_tasks := 1
        completed_tasks := 0, error_message := none }
    tasks := [exFailTask]
    agents := [exFailAgent]
    events := ["workflow_started"] }

/-- The retry scenario run to quiescence (five dispatch rounds of fuel; the
task leaves `pending` for good on the third). -/
def exFailFinal : EngineState := runFailingTask 5 exFailInit ("t1") ("ag") ("boom")

/-- The double-completion scenario: a one-task running execution. -/
def exC7Init : EngineState :=
  { execution :=
      { id := "x", status := WorkflowStatus.running, total_tasks := 1
        completed_tasks := 0, error_message := none }
    tasks := [exFailTask]
    agents := []
    events := [] }

/-- A placeholder engine state for `Except` projections (never reached in
the evaluations below). -/
def exC7Fallback : EngineState := exC7Init

/-- The state after completing the task once. -/
def exC7Once : EngineState :=
  ((completeTask exC7Init ("t1") Value.null).toOption).getD exC7Fallback

/-- The state after completing the same task a second time. -/
def exC7Twice : EngineState :=
  ((completeTask exC7Once ("t1") Value.null).toOption).getD exC7Fallback

/-- A settlement signal that has already completed. -/
def exCompletedSignal : SettlementSignal :=
  { status := SettlementStatus.completed, approved_by := some ("ops")
    approved_at := some ("2026-01-01T00:00:00+00:00")
    processed_at := some ("2026-01-01T00:00:01+00:00")
    transaction_id := some ("T-1"), error_message := none, retry_count := 0 }

/-- The task list of the self-loop definition example. -/
def exTasks : List Value :=
  [Value.dict [("id", Value.str ("a")), ("name", Value.str ("A")),
    ("type", Value.str ("agent"))]]

/-- An edge list consisting of one self-loop `a → a`. -/
def exSelfLoopEdges : List Value :=
  [Value.dict [("from", Value.str ("a")), ("to", Value.str ("a"))]]

/-- Python `isinstance(expected, dict)`. -/
def isDict : Value → Bool
  | Value.dict _ => true
  | _ => false

/-! ## Theorems: the condition evaluator (claim C8) -/

/-- Rational order agrees with cross-multiplication of numerators against
denominators. -/
theorem rat_lt_cross (a b : ℚ) :
    a < b ↔ a.num * (b.den : ℤ) < b.num * (a.den : ℤ) := by
  conv_lhs => rw [← a.num_div_den, ← b.num_div_den]
  rw [div_lt_div_iff₀ (by exact_mod_cast a.den_pos) (by exact_mod_cast b.den_pos)]
  exact_mod_cast Iff.rfl

/-- Non-strict rational order agrees with cross-multiplication. -/
theorem rat_le_cross (a b : ℚ) :
    a ≤ b ↔ a.num * (b.den : ℤ) ≤ b.num * (a.den : ℤ) := by
  conv_lhs => rw [← a.num_div_den, ← b.num_div_den]
  rw [div_le_div_iff₀ (by exact_mod_cast a.den_pos) (by exact_mod_cast b.den_pos)]
  exact_mod_cast Iff.rfl

/-- The model of Python `<` on numbers is the order on `ℚ`. -/
theorem ratLtb_eq_decide (a b : ℚ) : ratLtb a b = decide (a < b) := by
  rw [ratLtb, decide_eq_decide]
  exact (rat_lt_cross a b).symm

/-- The model of Python `<=` on numbers is the order on `ℚ`. -/
theorem ratLeb_eq_decide (a b : ℚ) : ratLeb a b = decide (a ≤ b) := by
  rw [ratLeb, decide_eq_decide]
  exact (rat_le_cross a b).symm

/-- The evaluator returns `True` exactly when every entry of the condition
map passes (the AND conjunction of the loop). -/
theorem evaluateConditions_ok_true_iff :
    ∀ (c d : List (String × Value)),
      evaluateConditions c d = .ok true ↔
        ∀ kv ∈ c, entryEval d kv.1 kv.2 = .ok true
  | [], d => by simp [evaluateConditions]
  | (k, v) :: rest, d => by
    have ih := evaluateConditions_ok_true_iff rest d
    rcases h : entryEval d k v with e | b
    · simp [evaluateConditions, h, List.forall_mem_cons]
    · cases b
      · simp [evaluateConditions, h, List.forall_mem_cons]
      · simp [evaluateConditions, h, List.forall_mem_cons, ih]

/-- C8: the settlement condition evaluator returns true iff every entry of
the trigger-conditions map is satisfied (AND): a bare expected value or
`$eq` demands equality, `$gt`/`$gte`/`$lt`/`$lte` demand the numeric
comparison against the resolved value, `$in` demands membership, a missing
path makes each comparison predicate false, and the spec's worked example
`{score: {$gte: 0.9}, region: {$in: ["US","EU"]}}` matches
`{score: 0.95, region: "EU"}` and rejects both `{score: 0.95, region: "AP"}`
and `{score: 0.8, region: "EU"}`. -/
theorem settlement_condition_evaluator_semantics :
    (∀ (c d : List (String × Value)),
      evaluateConditions c d = .ok true ↔
        ∀ kv ∈ c, entryEval d kv.1 kv.2 = .ok true) ∧
    (∀ (d : List (String × Value)) (k : String) (e : Value), isDict e = false →
      entryEval d k e = .ok (valueBeq (resolveKey d k) e)) ∧
    (∀ (d : List (String × Value)) (k : String) (v : Value),
      entryEval d k (Value.dict [(("$eq"), v)]) =
        .ok (valueBeq (resolveKey d k) v)) ∧
    (∀ (d : List (String × Value)) (k : String) (a b : ℚ),
      resolveKey d k = Value.num a →
      entryEval d k (Value.dict [(("$gt"), Value.num b)]) = .ok (decide (b < a)) ∧
      entryEval d k (Value.dict [(("$gte"), Value.num b)]) = .ok (decide (b ≤ a)) ∧
      entryEval d k (Value.dict [(("$lt"), Value.num b)]) = .ok (decide (a < b)) ∧
      entryEval d k (Value.dict [(("$lte"), Value.num b)]) = .ok (decide (a ≤ b))) ∧
    (∀ (d : List (String × Value)) (k : String) (xs : List Value),
      entryEval d k (Value.dict [(("$in"), Value.list xs)]) =
        .ok (xs.any (fun x => valueBeq x (resolveKey d k)))) ∧
    (∀ (d : List (String × Value)) (k : String) (b : Value),
      resolveKey d k = Value.null →
      entryEval d k (Value.dict [(("$gt"), b)]) = .ok false ∧
      entryEval d k (Value.dict [(("$gte"), b)]) = .ok false ∧
      entryEval d k (Value.dict [(("$lt"), b)]) = .ok false ∧
      entryEval d k (Value.dict [(("$lte"), b)]) = .ok false) ∧
    resolveKey [("a", Value.dict [("b", Value.num (intRat 3))])] ("a.b") =
      Value.num (intRat 3) ∧
    evaluateConditions exRule exData1 = .ok true ∧
    evaluateConditions exRule exData2 = .ok false ∧
    evaluateConditions exRule exData3 = .ok false := by
  refine ⟨evaluateConditions_ok_true_iff, ?_, ?_, ?_, ?_, ?_, rfl, rfl, rfl, rfl⟩
  · intro d k e he
    cases e <;> simp_all [entryEval, isDict]
  · intro d k v
    cases hb : valueBeq (resolveKey d k) v <;>
      simp [entryEval, checkEq, checkCmp, checkIn, hasKey, pyGet, hb]
  · intro d k a b hres
    have e1 : (!(ratLeb a b)) = decide (b < a) := by
      rw [ratLeb_eq_decide, ← decide_not, decide_eq_decide]
      exact not_le
    have e2 : (!(ratLtb a b)) = decide (b ≤ a) := by
      rw [ratLtb_eq_decide, ← decide_not, decide_eq_decide]
      exact not_lt
    have e3 : (!(ratLeb b a)) = decide (a < b) := by
      rw [ratLeb_eq_decide, ← decide_not, decide_eq_decide]
      exact not_le
    have e4 : (!(ratLtb b a)) = decide (a ≤ b) := by
      rw [ratLtb_eq_decide, ← decide_not, decide_eq_decide]
      exact not_lt
    refine ⟨?_, ?_, ?_, ?_⟩
    · rw [← e1]
      cases h : ratLeb a b <;>
        simp [entryEval, checkEq, checkCmp, checkIn, hasKey, pyGet, hres, isNull,
          pyLe, h]
    · rw [← e2]
      cases h : ratLtb a b <;>
        simp [entryEval, checkEq, checkCmp, checkIn, hasKey, pyGet, hres, isNull,
          pyLt, h]
    · rw [← e3]
      cases h : ratLeb b a <;>
        simp [entryEval, checkEq, checkCmp, checkIn, hasKey, pyGet, hres, isNull,
          pyGe, pyLe, h]
    · rw [← e4]
      cases h : ratLtb b a <;>
        simp [entryEval, checkEq, checkCmp, checkIn, hasKey, pyGet, hres, isNull,
          pyGt, pyLt, h]
  · intro d k xs
    cases hb : xs.any (fun x => valueBeq x (resolveKey d k)) <;>
      simp [entryEval, checkEq, checkCmp, checkIn, hasKey, pyGet, hb]
  · intro d k b hres
    refine ⟨?_, ?_, ?_, ?_⟩ <;>
      simp [entryEval, checkEq, checkCmp, checkIn, hasKey, pyGet, hres, isNull]

/-! ## Theorems: definition creation (claim C4) -/

/-- C4 counterexample: `create_definition` persists a definition whose only
edge is the self-loop `a → a` - nothing is rejected. -/
theorem createDefinition_accepts_self_loop :
    hasSelfLoop exSelfLoopEdges = true ∧
    (createDefinition [] ("wf") exTasks exSelfLoopEdges none ("1.0.0")).1 =
      [(createDefinition [] ("wf") exTasks exSelfLoopEdges none ("1.0.0")).2] ∧
    ((createDefinition [] ("wf") exTasks exSelfLoopEdges none ("1.0.0")).2).edges =
      exSelfLoopEdges :=
  ⟨rfl, rfl, rfl⟩

/-- C4 amended: `create_definition` performs no validation at all - every
call, whatever the edges (self-loops, cycles, unknown task references
included), persists a definition holding exactly the given tasks and edges,
active from the start. -/
theorem createDefinition_no_validation (defs : List WorkflowDefinition)
    (name : String) (tasks edges : List Value) (description : Option String)
    (version : String) :
    (createDefinition defs name tasks edges description version).1 =
      defs ++ [(createDefinition defs name tasks edges description version).2] ∧
    (createDefinition defs name tasks edges description version).2.tasks = tasks ∧
    (createDefinition defs name tasks edges description version).2.edges = edges ∧
    (createDefinition defs name tasks edges description version).2.is_active = true :=
  ⟨rfl, rfl, rfl, rfl⟩

/-! ## Theorems: the retry-then-fail scenario (claim C5) -/

/-- C5 counterexample: the always-failing task with the default retry limit
of 3 produces exactly two `task_retried` events, not three - the handler
increments `retry_count` before comparing it with `max_retries = 3`, so the
third failure already takes the terminal branch. -/
theorem retry_scenario_two_retries_not_three :
    exFailFinal.events.count ("task_retried") = 2 ∧
    ¬ exFailFinal.events.count ("task_retried") = 3 :=
  ⟨rfl, by decide⟩

/-- C5 amended: the always-failing task with the default retry limit of 3
yields exactly two `task_retried` events, then one `task_failed` and one
`workflow_failed`; the task ends failed with `retry_count = 3`, the
execution ends failed, the assigned agent's failed-task metric increments by
exactly 1, and no settlement signal is emitted. -/
theorem retry_scenario_trace :
    exFailFinal.events =
      ["workflow_started", "task_started", "task_retried", "task_started",
       "task_retried", "task_started", "task_failed", "workflow_failed"] ∧
    exFailFinal.tasks.map (fun t => t.status) = [TaskStatus.failed] ∧
    exFailFinal.tasks.map (fun t => t.retry_count) = [3] ∧
    exFailFinal.execution.status = WorkflowStatus.failed ∧
    exFailFinal.agents =
      [{ id := "ag", total_tasks := 1, successful_tasks := 0, failed_tasks := 1 }] ∧
    exFailFinal.events.count ("settlement_triggered") = 0 :=
  ⟨rfl, rfl, rfl, rfl, rfl, rfl⟩

/-! ## Theorems: settlement signal lifecycle (claim C6) -/

/-- C6 counterexample: `fail_signal` has no status guard - it moves even a
completed signal to `failed`, so `completed` is not terminal. -/
theorem failSignal_from_completed :
    exCompletedSignal.status = SettlementStatus.completed ∧
    (failSignal exCompletedSignal ("boom")).status = SettlementStatus.failed :=
  ⟨rfl, rfl⟩

/-- C6 amended: `approve_signal` succeeds exactly on pending signals and
`process_signal` exactly on approved or processing ones (each raising and
leaving the signal unchanged otherwise, so `completed` and `cancelled` are
terminal with respect to those two operations); `fail_signal`, however,
carries no guard and moves a signal of any status - active, completed or
cancelled alike - to `failed`, bumping its retry count. -/
theorem settlement_signal_guards :
    (∀ (s : SettlementSignal) (a n : String),
      s.status = SettlementStatus.pending →
      approveSignal s a n = .ok { s with
        status := SettlementStatus.approved
        approved_by := some a
        approved_at := some n }) ∧
    (∀ (s : SettlementSignal) (a n : String),
      s.status ≠ SettlementStatus.pending →
      approveSignal s a n =
        .error ("Signal is not pending approval: " ++ s.status.toStr)) ∧
    (∀ (s : SettlementSignal) (t n : String),
      s.status = SettlementStatus.approved ∨
        s.status = SettlementStatus.processing →
      processSignal s t n = .ok { s with
        status := SettlementStatus.completed
        processed_at := some n
        transaction_id := some t }) ∧
    (∀ (s : SettlementSignal) (t n : String),
      s.status ≠ SettlementStatus.approved →
      s.status ≠ SettlementStatus.processing →
      processSignal s t n =
        .error ("Signal must be approved before processing: " ++ s.status.toStr)) ∧
    (∀ (s : SettlementSignal) (m : String),
      (failSignal s m).status = SettlementStatus.failed ∧
      (failSignal s m).retry_count = s.retry_count + 1) := by
  refine ⟨?_, ?_, ?_, ?_, fun s m => ⟨rfl, rfl⟩⟩
  · intro s a n h
    simp [approveSignal, h]
  · intro s a n h
    simp [approveSignal, h]
  · intro s t n h
    rcases h with h | h <;> simp [processSignal, h]
  · intro s t n h1 h2
    simp [processSignal, h1, h2]

/-! ## Theorems: completed-task counters (claim C7) -/

/-- C7 counterexample: `complete_task` has no terminal-state guard, so
completing the same one-task execution's task twice succeeds and pushes
`completed_tasks` to 2 past `total_tasks = 1`, leaving a completed execution
with `completed_tasks ≠ total_tasks`. -/
theorem completeTask_double_completion_overflow :
    completeTask exC7Init ("t1") Value.null = .ok exC7Once ∧
    completeTask exC7Once ("t1") Value.null = .ok exC7Twice ∧
    exC7Twice.execution.completed_tasks = 2 ∧
    exC7Twice.execution.total_tasks = 1 ∧
    exC7Twice.execution.status = WorkflowStatus.completed ∧
    ¬ exC7Twice.execution.completed_tasks ≤ exC7Twice.execution.total_tasks :=
  ⟨rfl, rfl, rfl, rfl, rfl, by decide⟩

/-- Updating a task id absent from the list changes nothing. -/
theorem updateTask_id_not_mem (tasks : List TaskExecution) (taskId : String)
    (f : TaskExecution → TaskExecution)
    (h : taskId ∉ tasks.map (fun t => t.id)) :
    updateTask tasks taskId f = tasks := by
  induction tasks with
  | nil => rfl
  | cons t rest ih =>
    simp only [List.map_cons, List.mem_cons, not_or] at h
    obtain ⟨h1, h2⟩ := h
    have hne : (t.id == taskId) = false := by
      simp only [beq_eq_false_iff_ne, ne_eq]
      exact fun he => h1 he.symm
    simp only [updateTask, List.map_cons, hne, Bool.false_eq_true, if_false]
    rw [show rest.map (fun u => if u.id == taskId then f u else u) =
      updateTask rest taskId f from rfl, ih h2]

/-- Completing a not-yet-completed task (via an update that always lands on
`completed`) raises the completed count by exactly one, when task ids are
unique. -/
theorem countCompleted_complete (tasks : List TaskExecution) (taskId : String)
    (g : TaskExecution → TaskExecution) (t : TaskExecution)
    (hg : ∀ u, (g u).status = TaskStatus.completed)
    (hnodup : (tasks.map (fun u => u.id)).Nodup)
    (hfind : tasks.find? (fun u => u.id == taskId) = some t)
    (ht : t.status ≠ TaskStatus.completed) :
    countCompleted (updateTask tasks taskId g) = countCompleted tasks + 1 := by
  induction tasks with
  | nil => simp [List.find?] at hfind
  | cons u rest ih =>
    simp only [List.map_cons, List.nodup_cons] at hnodup
    obtain ⟨hnm, hnd⟩ := hnodup
    cases hu : (u.id == taskId) with
    | true =>
      have hut : u = t := by
        rw [show List.find? (fun w => w.id == taskId) (u :: rest) = some u from by
          simp [List.find?, hu]] at hfind
        exact Option.some_injective _ hfind
      have hrest : updateTask rest taskId g = rest := by
        refine updateTask_id_not_mem rest taskId g ?_
        rwa [← (beq_iff_eq).mp hu]
      have hgu : ((g u).status == TaskStatus.completed) = true := by
        simp [hg u]
      have hus : (u.status == TaskStatus.completed) = false := by
        rw [hut]
        simpa [beq_eq_false_iff_ne] using ht
      simp only [updateTask, List.map_cons, hu, if_true]
      rw [show rest.map (fun w => if w.id == taskId then g w else w) =
        updateTask rest taskId g from rfl, hrest]
      simp [countCompleted, List.filter_cons, hgu, hus]
    | false =>
      rw [show List.find? (fun w => w.id == taskId) (u :: rest) =
        List.find? (fun w => w.id == taskId) rest from by
          simp [List.find?, hu]] at hfind
      have ihr := ih hnd hfind
      simp only [updateTask, List.map_cons, hu, Bool.false_eq_true, if_false]
      rw [show rest.map (fun w => if w.id == taskId then g w else w) =
        updateTask rest taskId g from rfl]
      simp only [countCompleted, List.filter_cons] at ihr ⊢
      cases hus : (u.status == TaskStatus.completed) <;>
        simp only [hus, if_true, if_false, Bool.false_eq_true, List.length_cons] <;>
        omega

/-- C7 amended: `complete_task` has no terminal-state guard, so the claimed
invariant holds only when each call targets a task not already completed: in
a state with unique task ids and counters consistent with the rows, such a
call preserves `completed_tasks = #completed ≤ total_tasks = #tasks` and the
implication `status = completed → completed_tasks = total_tasks`. -/
theorem completeTask_preserves_invariant (st : EngineState) (taskId : String)
    (v : Value) (st2 : EngineState) (t : TaskExecution)
    (hnodup : (st.tasks.map (fun u => u.id)).Nodup)
    (hfind : st.tasks.find? (fun u => u.id == taskId) = some t)
    (hnc : t.status ≠ TaskStatus.completed)
    (hinv : execInvariant st)
    (hok : completeTask st taskId v = .ok st2) :
    execInvariant st2 ∧
      st2.execution.completed_tasks ≤ st2.execution.total_tasks := by
  obtain ⟨hc, htot, hcompl⟩ := hinv
  have hcount : countCompleted (updateTask st.tasks taskId (fun u =>
      { u with status := TaskStatus.completed, output_data := some v })) =
      countCompleted st.tasks + 1 :=
    countCompleted_complete st.tasks taskId _ t (fun u => rfl) hnodup hfind hnc
  have hlen : ∀ (f : TaskExecution → TaskExecution),
      (updateTask st.tasks taskId f).length = st.tasks.length := by
    intro f
    simp [updateTask]
  have hccle : countCompleted st.tasks + 1 ≤ st.tasks.length := by
    have h1 : countCompleted (updateTask st.tasks taskId (fun u =>
        { u with status := TaskStatus.completed, output_data := some v })) ≤
        (updateTask st.tasks taskId (fun u =>
          { u with status := TaskStatus.completed, output_data := some v })).length := by
      simpa [countCompleted] using List.length_filter_le _ _
    rw [hcount, hlen] at h1
    exact h1
  rcases hag : t.agent_id with _ | aid <;>
    simp only [completeTask, hfind, hag] at hok <;>
    split at hok <;>
    rename_i hge <;>
    simp only [Except.ok.injEq] at hok <;>
    subst hok <;>
    refine ⟨⟨?_, ?_, ?_⟩, ?_⟩ <;>
    simp only [completeWorkflow, hcount, hlen, execInvariant] <;>
    (try intro hst) <;>
    (try replace hst := hcompl hst) <;>
    omega

/-- Closed instance of the invariant preservation at the one-task scenario's
first completion. -/
theorem completeTask_preserves_invariant_witness :
    execInvariant exC7Once ∧
      exC7Once.execution.completed_tasks ≤ exC7Once.execution.total_tasks :=
  completeTask_preserves_invariant exC7Init ("t1") Value.null exC7Once exFailTask
    (by decide) rfl (by decide) ⟨rfl, rfl, by decide⟩ rfl

/-! ## Theorems: the ledger chain invariant (claim C2) -/

/-- Folding max over a chain segment yields the last sequence number. -/
theorem chainFrom_foldl_max :
    ∀ (l : List LedgerEvent) (n : Nat) (p : Option String) (a : Nat),
      chainFrom n p l →
      l.foldl (fun acc e => max acc e.sequence_number) a =
        if l.length = 0 then a else max a (n + l.length - 1)
  | [], n, p, a, _ => by simp
  | e :: rest, n, p, a, h => by
    obtain ⟨hseq, hprev, hrest⟩ := h
    have ih := chainFrom_foldl_max rest (n + 1) (some e.event_hash)
      (max a e.sequence_number) hrest
    rw [List.foldl_cons, ih, hseq]
    cases rest with
    | nil => simp
    | cons f fs =>
      simp only [List.length_cons, Nat.add_eq]
      rw [if_neg (by omega), if_neg (by omega)]
      omega

/-- Under the chain invariant, the stored maximum sequence number is the
ledger's length. -/
theorem chainOk_maxSeq (l : List LedgerEvent) (h : chainOk l) :
    maxSeq l = l.length := by
  have := chainFrom_foldl_max l 1 none 0 h
  rw [maxSeq, this]
  cases l with
  | nil => simp
  | cons e rest => simp

/-- Under the chain invariant, looking up the event at the last sequence
number finds the last event, whose hash is the expected next previous
hash. -/
theorem chainFrom_find_last :
    ∀ (l : List LedgerEvent) (n : Nat) (p : Option String) (m : Nat),
      chainFrom n p l → l ≠ [] → m = n + l.length - 1 →
      ((l.find? (fun e => e.sequence_number == m)).map
        (fun e => e.event_hash)) = chainNext p l
  | [], _, _, _, _, hne, _ => absurd rfl hne
  | e :: rest, n, p, m, h, _, hm => by
    obtain ⟨hseq, hprev, hrest⟩ := h
    cases rest with
    | nil =>
      have hbe : (e.sequence_number == m) = true := by
        simp only [List.length_cons, List.length_nil] at hm
        simp [hseq, hm]
      simp [List.find?, hbe, chainNext]
    | cons f fs =>
      have hne : (e.sequence_number == m) = false := by
        simp only [List.length_cons] at hm
        simp only [beq_eq_false_iff_ne, ne_eq, hseq]
        omega
      rw [show List.find? (fun w => w.sequence_number == m) (e :: f :: fs) =
        List.find? (fun w => w.sequence_number == m) (f :: fs) from by
          simp [List.find?, hne]]
      have := chainFrom_find_last (f :: fs) (n + 1) (some e.event_hash) m hrest
        (by simp) (by simp only [List.length_cons] at hm ⊢; omega)
      rw [show chainNext p (e :: f :: fs) =
        chainNext (some e.event_hash) (f :: fs) from rfl, ← this]

/-- Appending an event with the next sequence number and the expected
previous hash preserves the chain segment. -/
theorem chainFrom_append_one :
    ∀ (l : List LedgerEvent) (n : Nat) (p : Option String) (e : LedgerEvent),
      chainFrom n p l → e.sequence_number = n + l.length →
      e.previous_hash = chainNext p l → chainFrom n p (l ++ [e])
  | [], n, p, e, _, hs, hp => by
    refine ⟨by simpa using hs, by simpa [chainNext] using hp, trivial⟩
  | f :: rest, n, p, e, h, hs, hp => by
    obtain ⟨h1, h2, h3⟩ := h
    exact ⟨h1, h2, chainFrom_append_one rest (n + 1) (some f.event_hash) e h3
      (by simp at hs ⊢; omega) (by simpa [chainNext] using hp)⟩

/-- One `record_event` on a ledger satisfying the chain invariant preserves
it. -/
theorem recordEvent_preserves_chainOk (hash : String → String)
    (l : List LedgerEvent) (inp : RecordInput) (h : chainOk l) :
    chainOk (recordEvent hash l inp).1 := by
  have hmax := chainOk_maxSeq l h
  rw [recordEvent]
  simp only [hmax]
  cases l with
  | nil =>
    exact ⟨rfl, rfl, trivial⟩
  | cons f fs =>
    refine chainFrom_append_one (f :: fs) 1 none _ h (by simp; omega) ?_
    have hfind := chainFrom_find_last (f :: fs) 1 none ((f :: fs).length) h
      (by simp) (by simp)
    simp only [List.length_cons, gt_iff_lt, if_pos (Nat.succ_pos fs.length)]
    simpa using hfind

/-- C2: every ledger reachable from the empty table through `record_event`
satisfies the chain invariant - sequence numbers run 1..n with no gaps, the
first event has a null `previous_hash`, and every later event's
`previous_hash` is the stored hash of its predecessor (`record_event`
assigns `max(sequence_number) + 1` and links to the event it finds there). -/
theorem recordEvent_chain_invariant (hash : String → String)
    (l : List LedgerEvent) (h : ReachableLedger hash l) : chainOk l := by
  induction h with
  | nil => trivial
  | step l inp _ ih => exact recordEvent_preserves_chainOk hash l inp ih

/-- Closed instance: the chain invariant of the concrete two-event ledger,
reached by two `record_event` calls. -/
theorem recordEvent_chain_invariant_witness : chainOk exLedger2 :=
  recordEvent_chain_invariant exHash exLedger2
    (ReachableLedger.step exLedger1 exInput2
      (ReachableLedger.step [] exInput1 ReachableLedger.nil))

/-! ## Theorems: range verification away from genesis (claim C10) -/

/-- Insertion keeps exactly the elements. -/
theorem mem_insertBySeq (e f : LedgerEvent) :
    ∀ l : List LedgerEvent, f ∈ insertBySeq e l ↔ f = e ∨ f ∈ l
  | [] => by simp [insertBySeq]
  | g :: gs => by
    by_cases h : e.sequence_number ≤ g.sequence_number
    · simp [insertBySeq, h]
    · simp [insertBySeq, h, mem_insertBySeq e f gs]
      tauto

/-- Sorting keeps exactly the elements. -/
theorem mem_sortBySeq (f : LedgerEvent) :
    ∀ l : List LedgerEvent, f ∈ sortBySeq l ↔ f ∈ l
  | [] => Iff.rfl
  | e :: es => by
    simp [sortBySeq, mem_insertBySeq, mem_sortBySeq f es]

/-- In a chain segment, every event is either the first one (whose
`previous_hash` is the incoming expectation) or carries some stored hash as
its `previous_hash`. -/
theorem chainFrom_mem_prev :
    ∀ (l : List LedgerEvent) (n : Nat) (p : Option String) (e : LedgerEvent),
      chainFrom n p l → e ∈ l →
      (e.sequence_number = n ∧ e.previous_hash = p) ∨
        ∃ hh, e.previous_hash = some hh
  | [], _, _, _, _, hmem => absurd hmem (List.not_mem_nil _)
  | f :: rest, n, p, e, h, hmem => by
    obtain ⟨h1, h2, h3⟩ := h
    rcases List.mem_cons.mp hmem with he | he
    · subst he
      exact Or.inl ⟨h1, h2⟩
    · rcases chainFrom_mem_prev rest (n + 1) (some f.event_hash) e h3 he with
        ⟨_, hp⟩ | hp
      · exact Or.inr ⟨f.event_hash, hp⟩
      · exact Or.inr hp

/-- Under the chain invariant, an event with sequence number above 1 has a
non-null `previous_hash`. -/
theorem chainOk_prev_some (l : List LedgerEvent) (e : LedgerEvent)
    (h : chainOk l) (hmem : e ∈ l) (hs : 1 < e.sequence_number) :
    ∃ hh, e.previous_hash = some hh := by
  rcases chainFrom_mem_prev l 1 none e h hmem with ⟨h1, _⟩ | hp
  · omega
  · exact hp

/-- C10: `verify_chain_range` seeds its running previous hash with `None`,
so on an intact ledger any non-empty range whose first event has sequence
number above 1 gets a chain-break error at that first event and
`all_valid = false`. -/
theorem verifyChainRange_rejects_non_genesis (hash : String → String)
    (ledger : List LedgerEvent) (s e : Nat) (f : LedgerEvent)
    (rest : List LedgerEvent) (hok : chainOk ledger)
    (hchain : getEventChain ledger s e = f :: rest)
    (hseq : 1 < f.sequence_number) :
    (verifyChainRange hash ledger s e).1 = false ∧
    ∃ err ∈ (verifyChainRange hash ledger s e).2,
      err.sequence = f.sequence_number ∧
      err.error = some ("Chain break - previous hash mismatch") := by
  have hfmem : f ∈ ledger := by
    have h1 : f ∈ getEventChain ledger s e := by
      rw [hchain]
      exact List.mem_cons_self f rest
    rw [getEventChain] at h1
    exact (List.mem_filter.mp ((mem_sortBySeq f _).mp h1)).1
  obtain ⟨hh, hph⟩ := chainOk_prev_some ledger f hok hfmem hseq
  have hcontr : (f.previous_hash == (none : Option String)) = false := by
    simp [hph]
  rw [verifyChainRange, hchain]
  simp only [verifyChainRangeLoop, hcontr, Bool.not_false, if_true]
  constructor
  · simp
  · exact ⟨⟨f.sequence_number, some ("Chain break - previous hash mismatch"),
      some none, some f.previous_hash⟩, by simp, rfl, rfl⟩

/-- Closed instance: on the intact two-event ledger, the range `[2,2]` -
not anchored at genesis - reports a chain break and fails. -/
theorem verifyChainRange_rejects_non_genesis_witness :
    (verifyChainRange exHash exLedger2 2 2).1 = false ∧
    ∃ err ∈ (verifyChainRange exHash exLedger2 2 2).2,
      err.sequence = ((recordEvent exHash exLedger1 exInput2).2).sequence_number ∧
      err.error = some ("Chain break - previous hash mismatch") :=
  verifyChainRange_rejects_non_genesis exHash exLedger2 2 2
    ((recordEvent exHash exLedger1 exInput2).2) []
    ⟨rfl, rfl, rfl, rfl, trivial⟩ rfl (by decide)

/-! ## Theorems: Merkle blocks (claim C9) -/

/-- The seed of the block-number fold never exceeds the result. -/
theorem foldl_maxBlock_init_le :
    ∀ (blocks : List LedgerBlock) (a : Nat),
      a ≤ blocks.foldl (fun acc c => max acc c.block_number) a
  | [], a => le_refl a
  | c :: cs, a => by
    calc a ≤ max a c.block_number := le_max_left _ _
    _ ≤ cs.foldl (fun acc d => max acc d.block_number) (max a c.block_number) :=
        foldl_maxBlock_init_le cs _

/-- Every stored block number is bounded by the fold. -/
theorem mem_le_foldl_maxBlock :
    ∀ (blocks : List LedgerBlock) (a : Nat) (b : LedgerBlock), b ∈ blocks →
      b.block_number ≤ blocks.foldl (fun acc c => max acc c.block_number) a
  | [], _, _, hmem => absurd hmem (List.not_mem_nil _)
  | c :: cs, a, b, hmem => by
    rcases List.mem_cons.mp hmem with hb | hb
    · subst hb
      calc b.block_number ≤ max a b.block_number := le_max_right _ _
      _ ≤ cs.foldl (fun acc d => max acc d.block_number) (max a b.block_number) :=
          foldl_maxBlock_init_le cs _
    · exact mem_le_foldl_maxBlock cs _ b hb

/-- Appending a block with a fresh number, looking it up by that number
finds it. -/
theorem find_append_new_block :
    ∀ (blocks : List LedgerBlock) (block : LedgerBlock),
      (∀ b ∈ blocks, b.block_number ≠ block.block_number) →
      (blocks ++ [block]).find?
        (fun b => b.block_number == block.block_number) = some block
  | [], block, _ => by simp [List.find?]
  | c :: cs, block, hne => by
    have hc : (c.block_number == block.block_number) = false := by
      simpa [beq_eq_false_iff_ne] using hne c (List.mem_cons_self c cs)
    rw [show ((c :: cs) ++ [block]) = c :: (cs ++ [block]) from rfl]
    rw [show List.find? (fun b => b.block_number == block.block_number)
      (c :: (cs ++ [block])) = List.find?
        (fun b => b.block_number == block.block_number) (cs ++ [block]) from by
          simp [List.find?, hc]]
    exact find_append_new_block cs block
      (fun b hb => hne b (List.mem_cons_of_mem c hb))

/-- C9: the Merkle root of an empty list is the hash of the empty string,
and a successful `create_block(start, end)` stores exactly the pairwise
Merkle root of the event hashes in range, the canonical block hash of
`{block_number, start_sequence, end_sequence, merkle_root,
previous_block_hash}`, and then `verify_block` on the untampered block
returns `(true, None)`. -/
theorem merkle_block_roundtrip :
    (∀ hash : String → String, merkleRoot hash [] = hash ("")) ∧
    ∀ (hash : String → String) (ledger : List LedgerEvent)
      (blocks blocks2 : List LedgerBlock) (s e : Nat) (block : LedgerBlock),
      createBlock hash ledger blocks s e = .ok (blocks2, block) →
      blocks2 = blocks ++ [block] ∧
      block.merkle_root = merkleRoot hash
        ((getEventChain ledger s e).map (fun ev => ev.event_hash)) ∧
      block.block_hash = hashEvent hash (blockData block.block_number s e
        block.merkle_root block.previous_block_hash) ∧
      verifyBlock hash ledger blocks2 block.block_number = (true, none) := by
  refine ⟨fun hash => rfl, ?_⟩
  intro hash ledger blocks blocks2 s e block hcr
  rw [createBlock] at hcr
  split at hcr
  · exact absurd hcr (by simp)
  · simp only [Except.ok.injEq, Prod.mk.injEq] at hcr
    obtain ⟨hb2, hb⟩ := hcr
    subst hb2
    subst hb
    refine ⟨rfl, rfl, rfl, ?_⟩
    have hfind := find_append_new_block blocks
      { block_number := maxBlockNumber blocks + 1
        start_sequence := s
        end_sequence := e
        event_count := (getEventChain ledger s e).length
        previous_block_hash := (latestBlock blocks).map (fun b => b.block_hash)
        block_hash := hashEvent hash (blockData (maxBlockNumber blocks + 1) s e
          (merkleRoot hash ((getEventChain ledger s e).map (fun ev => ev.event_hash)))
          ((latestBlock blocks).map (fun b => b.block_hash)))
        merkle_root := merkleRoot hash
          ((getEventChain ledger s e).map (fun ev => ev.event_hash)) }
      (by
        intro b hb heq
        have hle := mem_le_foldl_maxBlock blocks 0 b hb
        rw [show blocks.foldl (fun acc c => max acc c.block_number) 0 =
          maxBlockNumber blocks from rfl] at hle
        simp only at heq
        omega)
    rw [verifyBlock, hfind]
    simp

/-- A fallback block for `Except` projections (never reached below). -/
def exBlockFallback : LedgerBlock :=
  { block_number := 0, start_sequence := 0, end_sequence := 0, event_count := 0
    previous_block_hash := none, block_hash := "", merkle_root := "" }

/-- The block created over the two-event ledger, with its block table. -/
def exBlockPair : List LedgerBlock × LedgerBlock :=
  ((createBlock exHash exLedger2 [] 1 2).toOption).getD ([], exBlockFallback)

/-- Closed instance of the block round-trip on the two-event ledger. -/
theorem merkle_block_roundtrip_witness :
    verifyBlock exHash exLedger2 exBlockPair.1 exBlockPair.2.block_number =
      (true, none) :=
  ((merkle_block_roundtrip.2 exHash exLedger2 [] exBlockPair.1 1 2
    exBlockPair.2 rfl).2.2).2

/-! ## Theorems: the hash round-trip and its timestamp mismatch (claim C1) -/

set_option maxRecDepth 40000

/-- C1 at the failing input: `record_event` hashes the wall-clock
`datetime.now()` reading but never stores it, while the stored `created_at`
comes from the database's `server_default=func.now()` at flush time - a
later instant.  `verify_chain` recomputes with `created_at.isoformat()`, so
on the ledger as real inserts produce it (the two readings differing) the
untampered single event already fails with a hash mismatch; only when the
two readings coincide (which nothing in the code arranges) does the
round-trip reproduce `event_hash` and `verify_chain` return `(true, None)`,
as the spec demands. -/
theorem verifyChain_timestamp_mismatch_bug :
    exLedgerMismatch = [(recordEvent exHash [] exInputMismatch).2] ∧
    verifyChain exHash exLedgerMismatch 1 1 =
      (false, some ("Hash mismatch at sequence 1")) ∧
    verifyChain exHash exLedger2 1 2 = (true, none) :=
  ⟨rfl, rfl, rfl⟩

end UAEF
